import Mathlib

/-!
Verification development for the clipboard capture pipeline
(src-tauri: content_detector.rs, clipboard_monitor.rs, image_handler.rs,
app_icons.rs). Strings are modelled as lists of characters; the Rust
regular expressions are embedded as executable backtracking matchers over
those lists. Machine integers are modelled by Nat / Int, with comments at
the places where the Rust code could overflow or truncate.
-/

/-- Whitespace test used both for the Rust str::trim and for the regex
class backslash-s. Rust uses the Unicode White_Space property; the inputs
of interest here are ASCII, so the ASCII whitespace characters are
modelled. -/
def isWhitespaceChar (c : Char) : Bool :=
  c = ' ' || c = '\t' || c = '\n' || c = '\x0b' || c = '\x0c' || c = '\r'

/-- Rust str::trim : remove leading and trailing whitespace. -/
def trim (l : List Char) : List Char :=
  ((l.dropWhile isWhitespaceChar).reverse.dropWhile isWhitespaceChar).reverse

/-- Hex digit class [0-9A-Fa-f]. -/
def isHexDigitChar (c : Char) : Bool :=
  (('0' ≤ c && c ≤ '9') || ('A' ≤ c && c ≤ 'F') || ('a' ≤ c && c ≤ 'f'))

/-- Strip a literal from the front of a list, returning the remainder. -/
def stripLit : List Char → List Char → Option (List Char)
  | [], l => some l
  | _ :: _, [] => none
  | p :: ps, c :: cs => if c = p then stripLit ps cs else none

/-- Does the list start with the given literal. -/
def startsLit (s : List Char) (l : List Char) : Bool :=
  (stripLit s l).isSome

/-- HEX_COLOR_REGEX from content_detector.rs:
hash sign followed by exactly 3, 6 or 8 hex digits, anchored both sides. -/
def hexColorMatch (l : List Char) : Bool :=
  match l with
  | '#' :: rest =>
      (rest.length = 3 || rest.length = 6 || rest.length = 8)
        && rest.all isHexDigitChar
  | _ => false

/-- The common top level domains of URL_REGEX. -/
def urlTlds : List (List Char) :=
  ["com", "org", "net", "edu", "gov", "io", "co", "app",
   "dev", "tech", "ai", "me", "info", "biz"].map String.toList

/-- Tail of the second URL alternative: one of the listed TLDs followed by
the end of the string or by a slash and further non-whitespace characters. -/
def urlTldTail (l : List Char) : Bool :=
  urlTlds.any fun t =>
    match stripLit t l with
    | none => false
    | some [] => true
    | some (c :: r) => c = '/' && r.all (fun x => !isWhitespaceChar x)

/-- Scanner for the second URL alternative after at least one
non-whitespace character has been consumed: at every later dot the matcher
may either close the leading non-whitespace block and read a TLD tail, or
keep the dot inside the block and continue. -/
def urlAlt2From : List Char → Bool
  | [] => false
  | c :: rest =>
      !isWhitespaceChar c && ((c = '.' && urlTldTail rest) || urlAlt2From rest)

/-- Second alternative of URL_REGEX: the whole string is a non-whitespace
block, a dot, a common TLD, and an optional slash-path. -/
def urlAlt2 (l : List Char) : Bool :=
  match l with
  | [] => false
  | c :: rest => !isWhitespaceChar c && urlAlt2From rest

/-- First alternative of URL_REGEX: the string starts with http://,
https:// or www. followed by at least one non-whitespace character (the
alternative is anchored only on the left, so the rest of the string is
unconstrained). -/
def urlAlt1 (l : List Char) : Bool :=
  (["http://", "https://", "www."].map String.toList).any fun p =>
    match stripLit p l with
    | some (c :: _) => !isWhitespaceChar c
    | _ => false

/-- URL_REGEX from content_detector.rs, as a whole-haystack is_match. -/
def urlMatch (l : List Char) : Bool :=
  urlAlt1 l || urlAlt2 l

/-- Local part character class of EMAIL_REGEX. -/
def isEmailLocalChar (c : Char) : Bool :=
  c.isAlpha || c.isDigit || c = '.' || c = '_' || c = '%' || c = '+' || c = '-'

/-- Domain character class of EMAIL_REGEX. -/
def isEmailDomChar (c : Char) : Bool :=
  c.isAlpha || c.isDigit || c = '.' || c = '-'

/-- Final TLD of EMAIL_REGEX: at least two ASCII letters up to the end. -/
def emailTld (l : List Char) : Bool :=
  2 ≤ l.length && l.all Char.isAlpha

/-- Domain scanner of EMAIL_REGEX after at least one domain character has
been consumed: at every dot the matcher may close the domain block and
read the final TLD, or keep the dot inside the block. -/
def emailDomainFrom : List Char → Bool
  | [] => false
  | c :: rest =>
      isEmailDomChar c && ((c = '.' && emailTld rest) || emailDomainFrom rest)

/-- Domain part of EMAIL_REGEX: at least one domain character, then a dot
and a TLD of two or more letters. -/
def emailDomain : List Char → Bool
  | [] => false
  | c :: rest => isEmailDomChar c && emailDomainFrom rest

/-- Scanner for EMAIL_REGEX after at least one local character: the at
sign ends the local block (it is not a local character, so there is no
ambiguity), and the domain part follows. -/
def emailFromLocal : List Char → Bool
  | [] => false
  | c :: rest =>
      if c = '@' then emailDomain rest
      else isEmailLocalChar c && emailFromLocal rest

/-- EMAIL_REGEX from content_detector.rs, anchored on both sides. -/
def emailMatch : List Char → Bool
  | [] => false
  | c :: rest => isEmailLocalChar c && emailFromLocal rest

/-- Strip exactly n ASCII digits. -/
def stripDigits : Nat → List Char → Option (List Char)
  | 0, l => some l
  | _ + 1, [] => none
  | n + 1, c :: rest => if c.isDigit then stripDigits n rest else none

/-- Optional single separator of PHONE_REGEX: one whitespace or dash. The
following pattern element is always a digit, so consuming is forced
whenever the separator is present. -/
def stripOptSep (l : List Char) : List Char :=
  match l with
  | c :: rest => if isWhitespaceChar c || c = '-' then rest else l
  | [] => l

/-- Area code and following groups of PHONE_REGEX: three digits, plain or
parenthesised, then optional separator, three digits, optional separator,
four digits, end of string. -/
def phoneCore (l : List Char) : Bool :=
  let afterArea : List Char → Bool := fun r =>
    match stripDigits 3 (stripOptSep r) with
    | none => false
    | some r2 => stripDigits 4 (stripOptSep r2) = some []
  (match l with
   | '(' :: r =>
       (match stripDigits 3 r with
        | some (')' :: r2) => afterArea r2
        | _ => false)
   | _ => false)
  || (match stripDigits 3 l with
      | some r => afterArea r
      | none => false)

/-- PHONE_REGEX from content_detector.rs. The optional prefix group is a
plus sign, a one, and a whitespace, each optional; only the one is
ambiguous (it could instead be the first digit of the area code), so both
readings are tried. -/
def phoneMatch (l : List Char) : Bool :=
  let l1 := match l with
    | '+' :: r => r
    | _ => l
  let stripWs : List Char → List Char := fun r =>
    match r with
    | c :: rest => if isWhitespaceChar c then rest else r
    | [] => r
  phoneCore (stripWs l1)
    || (match l1 with
        | '1' :: r => phoneCore (stripWs r)
        | _ => false)

/-- NUMBER_REGEX from content_detector.rs: optional sign, then either one
or more digits with an optional decimal part, or a leading-dot decimal. -/
def numberMatch (l : List Char) : Bool :=
  let l1 := match l with
    | c :: r => if c = '+' || c = '-' then r else l
    | [] => l
  let alt1 :=
    match l1 with
    | c :: _ =>
        c.isDigit &&
          (match l1.dropWhile Char.isDigit with
           | [] => true
           | '.' :: r2 => r2.all Char.isDigit
           | _ => false)
    | [] => false
  let alt2 :=
    match l1 with
    | '.' :: r => !r.isEmpty && r.all Char.isDigit
    | [] => false
    | _ => false
  alt1 || alt2

/-- Word character class backslash-w of CODE_REGEX (ASCII part). -/
def isWordChar (c : Char) : Bool :=
  c.isAlphanum || c = '_'

/-- One or more whitespace characters, then the rest. Greedy consumption
is safe in CODE_REGEX because whitespace never starts the next element. -/
def wsPlus (l : List Char) : Option (List Char) :=
  match l with
  | c :: r => if isWhitespaceChar c then some (r.dropWhile isWhitespaceChar) else none
  | [] => none

/-- One or more word characters, then the rest. -/
def wordPlus (l : List Char) : Option (List Char) :=
  match l with
  | c :: r => if isWordChar c then some (r.dropWhile isWordChar) else none
  | [] => none

/-- CODE_REGEX element: keyword, whitespace, identifier. -/
def kwWsWord (kw : String) (l : List Char) : Bool :=
  (((stripLit kw.toList l).bind wsPlus).bind wordPlus).isSome

/-- CODE_REGEX element: keyword, whitespace, identifier, optional
whitespace, equals sign. -/
def kwAssign (kw : String) (l : List Char) : Bool :=
  match ((stripLit kw.toList l).bind wsPlus).bind wordPlus with
  | some r =>
      match r.dropWhile isWhitespaceChar with
      | '=' :: _ => true
      | _ => false
  | none => false

/-- CODE_REGEX element: keyword followed by at least one whitespace. -/
def kwWs (kw : String) (l : List Char) : Bool :=
  match stripLit kw.toList l with
  | some (c :: _) => isWhitespaceChar c
  | _ => false

/-- Opening brace character (written by code point to keep brace
characters out of the literals). -/
def braceOpen : Char := Char.ofNat 123

/-- Closing brace character. -/
def braceClose : Char := Char.ofNat 125

/-- CODE_REGEX element: an open brace, any characters other than a close
brace, then a close brace. -/
def braceBlock (l : List Char) : Bool :=
  match l with
  | c :: r =>
      c = braceOpen &&
        (match r.dropWhile (fun x => x != braceClose) with
         | c2 :: _ => c2 = braceClose
         | [] => false)
  | [] => false

/-- One position of CODE_REGEX: does any alternative match starting
here. The semicolon alternative requires the end of the haystack right
after the semicolon. -/
def codeAt (l : List Char) : Bool :=
  kwWsWord "function" l || kwAssign "const" l || kwAssign "let" l
    || kwAssign "var" l || kwWsWord "class" l || kwWsWord "def" l
    || kwWs "import" l || kwWs "export" l || kwWs "return" l
    || kwWs "public" l || kwWs "private" l || kwWs "protected" l
    || braceBlock l || l = [';'] || startsLit "=>".toList l
    || startsLit "::".toList l

/-- CODE_REGEX from content_detector.rs as an unanchored is_match: some
suffix position matches. -/
def codeMatch : List Char → Bool
  | [] => false
  | c :: rest => codeAt (c :: rest) || codeMatch rest

/-- ContentType enum from content_detector.rs. -/
inductive ContentType where
  | Color
  | Url
  | Email
  | Phone
  | Number
  | Code
  | Text
deriving DecidableEq, Repr

/-- ContentType::as_str from content_detector.rs. -/
def ContentType.as_str : ContentType → String
  | .Color => "color"
  | .Url => "links"
  | .Email => "email"
  | .Phone => "phone"
  | .Number => "number"
  | .Code => "code"
  | .Text => "text"

/-- detect_content_type from content_detector.rs: trim, then first match
wins in the order color, url, email, phone, number, code, text. -/
def detect_content_type (content : List Char) : ContentType :=
  let trimmed := trim content
  if trimmed.isEmpty then .Text
  else if hexColorMatch trimmed then .Color
  else if urlMatch trimmed then .Url
  else if emailMatch trimmed then .Email
  else if phoneMatch trimmed then .Phone
  else if numberMatch trimmed then .Number
  else if codeMatch trimmed then .Code
  else .Text

/-- UTF-8 size of one character; Rust str::len counts bytes of the UTF-8
encoding. -/
def charUtf8Size (c : Char) : Nat :=
  if c.toNat < 0x80 then 1
  else if c.toNat < 0x800 then 2
  else if c.toNat < 0x10000 then 3
  else 4

/-- Rust str::len (byte length of the UTF-8 encoding). -/
def utf8Len (l : List Char) : Nat :=
  (l.map charUtf8Size).sum

/-- Rust String::to_lowercase. The Rust function applies the full Unicode
lowercase mapping; the ASCII mapping is modelled (Char.toLower lowers
exactly the ASCII uppercase letters), which agrees with Rust on all ASCII
text, and the denylist patterns are ASCII. -/
def lowerList (l : List Char) : List Char :=
  l.map Char.toLower

/-- Rust str::contains with a literal pattern: the pattern occurs as a
contiguous substring. -/
def containsSub (pat : List Char) : List Char → Bool
  | [] => (stripLit pat []).isSome
  | c :: r => startsLit pat (c :: r) || containsSub pat r

/-- The denylist of should_ignore_content in clipboard_monitor.rs. -/
def ignorePatterns : List (List Char) :=
  ["[log]", "[error]", "[warn]", "[info]", "[debug]", "console.",
   "clipboard changed event", "saved clipboard item", ".ts:", ".js:",
   "(clipboardstore", "(database.ts"].map String.toList

/-- should_ignore_content from clipboard_monitor.rs: ignore when the
trimmed content is shorter than 2 bytes, or when the lower-cased content
contains one of the denylist substrings. -/
def should_ignore_content (content : List Char) : Bool :=
  if utf8Len (trim content) < 2 then true
  else ignorePatterns.any fun p => containsSub p (lowerList content)

/-- ClipboardMonitor state from clipboard_monitor.rs. The debounce_ms
field is the constant 1000 set in new(). spawnedLoops is a ghost counter
of the monitor_loop tasks spawned by start, used to state the lifecycle
claim; the Rust struct has no such field, tokio owns the tasks. -/
structure ClipboardMonitor where
  is_running : Bool
  last_content : List Char
  last_image_hash : String
  last_timestamp : Int
  spawnedLoops : Nat
deriving DecidableEq, Repr

/-- ClipboardMonitor::new. -/
def ClipboardMonitor.new : ClipboardMonitor :=
  { is_running := false
    last_content := []
    last_image_hash := ""
    last_timestamp := 0
    spawnedLoops := 0 }

/-- ClipboardMonitor::start: a no-op while the running flag is set,
otherwise it sets the flag and spawns one monitor_loop task. -/
def ClipboardMonitor.start (m : ClipboardMonitor) : ClipboardMonitor :=
  if m.is_running then m
  else { m with is_running := true, spawnedLoops := m.spawnedLoops + 1 }

/-- ClipboardMonitor::stop: clears the running flag (the in-flight loop
observes the cleared flag at the top of its next iteration). -/
def ClipboardMonitor.stop (m : ClipboardMonitor) : ClipboardMonitor :=
  { m with is_running := false }

/-- ClipboardMonitor::is_running: reads the running flag. -/
def ClipboardMonitor.is_running_query (m : ClipboardMonitor) : Bool :=
  m.is_running

/-- ClipboardMonitor::should_save from clipboard_monitor.rs: reject
ignored content; accept content different from last_content; for
identical content accept only when strictly more than debounce_ms = 1000
milliseconds have elapsed since last_timestamp. -/
def ClipboardMonitor.should_save (m : ClipboardMonitor)
    (new_content : List Char) (current_time : Int) : Bool :=
  if should_ignore_content new_content then false
  else if new_content ≠ m.last_content then true
  else current_time - m.last_timestamp > 1000

/-- AppInfo from app_detector.rs. -/
structure AppInfo where
  name : String
  bundle_id : Option String

/-- The fields of AppSettings from settings.rs that the monitor reads. -/
structure AppSettings where
  save_images : Bool
  max_image_size_mb : Nat

/-- APP_ICONS from app_icons.rs: bundle id to emoji, as an association
list (the Rust HashMap has distinct keys, so lookup agrees). -/
def APP_ICONS : List (String × String) :=
  [("com.google.Chrome", "🌐"), ("com.apple.Safari", "🧭"),
   ("org.mozilla.firefox", "🦊"), ("com.microsoft.edgemac", "🔷"),
   ("com.brave.Browser", "🦁"), ("com.operasoftware.Opera", "🔴"),
   ("com.vivaldi.Vivaldi", "🎼"), ("com.microsoft.VSCode", "💻"),
   ("com.apple.dt.Xcode", "🔨"), ("com.jetbrains.intellij", "🧠"),
   ("com.sublimetext.4", "📝"), ("com.sublimetext.3", "📝"),
   ("io.zed.Zed", "⚡"), ("com.apple.Notes", "📒"),
   ("notion.id", "📓"), ("com.apple.finder", "📁"),
   ("com.apple.TextEdit", "📄"), ("com.apple.Preview", "🖼️"),
   ("com.tinyspeck.slackmacgap", "💬"), ("com.apple.MobileSMS", "💭"),
   ("us.zoom.xos", "📹"), ("com.microsoft.teams", "👥"),
   ("com.hnc.Discord", "🎮"), ("com.apple.Terminal", "🖥️"),
   ("com.googlecode.iterm2", "⌨️"), ("dev.warp.Warp-Stable", "🚀"),
   ("com.figma.Desktop", "🎨"), ("com.bohemiancoding.sketch3", "✏️"),
   ("com.spotify.client", "🎵"), ("com.apple.mail", "📧")]

/-- APP_NAME_ICONS from app_icons.rs: app name to emoji. -/
def APP_NAME_ICONS : List (String × String) :=
  [("Google Chrome", "🌐"), ("Safari", "🧭"), ("Firefox", "🦊"),
   ("Microsoft Edge", "🔷"), ("Brave Browser", "🦁"), ("Opera", "🔴"),
   ("Vivaldi", "🎼"), ("Visual Studio Code", "💻"), ("Code", "💻"),
   ("Xcode", "🔨"), ("IntelliJ IDEA", "🧠"), ("Sublime Text", "📝"),
   ("Zed", "⚡"), ("Notes", "📒"), ("Notion", "📓"), ("Finder", "📁"),
   ("TextEdit", "📄"), ("Preview", "🖼️"), ("Slack", "💬"),
   ("Messages", "💭"), ("zoom.us", "📹"), ("Microsoft Teams", "👥"),
   ("Discord", "🎮"), ("Terminal", "🖥️"), ("iTerm2", "⌨️"),
   ("iTerm", "⌨️"), ("Warp", "🚀"), ("Figma", "🎨"), ("Sketch", "✏️"),
   ("Spotify", "🎵"), ("Mail", "📧")]

/-- HashMap::get on an association list. -/
def tableGet (t : List (String × String)) (k : String) : Option String :=
  (t.find? fun p => p.1 == k).map fun p => p.2

/-- get_icon_by_bundle_id from app_icons.rs. -/
def get_icon_by_bundle_id (bundle_id : String) : Option String :=
  tableGet APP_ICONS bundle_id

/-- get_icon_by_name from app_icons.rs. -/
def get_icon_by_name (app_name : String) : Option String :=
  tableGet APP_NAME_ICONS app_name

/-- get_app_icon from app_icons.rs: bundle id table first, then name
table, then the default glyph. This is the function save_to_database and
save_image_to_database call for the emitted record. -/
def get_app_icon (bundle_id : Option String) (app_name : String) : String :=
  match bundle_id.bind get_icon_by_bundle_id with
  | some icon => icon
  | none =>
      match get_icon_by_name app_name with
      | some icon => icon
      | none => "📋"

/-- get_system_icon from app_icons.rs, with the ICON_CACHE map passed
explicitly and fetch_system_icon abstracted as a function argument (it
calls the macOS AppKit bindings). Returns the icon, the updated cache,
and whether fetch_system_icon was invoked. A hit returns the cached value
unchanged, also when that value is a cached miss (None). -/
def get_system_icon (fetch : String → Option String)
    (cache : List (String × Option String)) (bundle_id : String) :
    Option String × List (String × Option String) × Bool :=
  match (cache.find? fun p => p.1 == bundle_id).map (fun p => p.2) with
  | some cached => (cached, cache, false)
  | none =>
      let icon := fetch bundle_id
      (icon, (bundle_id, icon) :: cache, true)

/-- get_app_icon_data from app_icons.rs (the Tauri command the frontend
calls): system icon by bundle id first, with the cache, then the emoji
resolution of get_app_icon. -/
def get_app_icon_data (fetch : String → Option String)
    (cache : List (String × Option String)) (bundle_id : Option String)
    (app_name : String) : String × List (String × Option String) :=
  match bundle_id with
  | some bid =>
      match get_system_icon fetch cache bid with
      | (some icon_data, cache2, _) => (icon_data, cache2)
      | (none, cache2, _) => (get_app_icon bundle_id app_name, cache2)
  | none => (get_app_icon bundle_id app_name, cache)

/-- Resolution order that claim C9 states for the icon of an accepted
clipboard item, written from the words of the claim for comparison with
the source: (a) platform native icon by bundle id, (b) bundle id table,
(c) name table, (d) fallback glyph. -/
def claimedItemIconResolution (fetch : String → Option String)
    (bundle_id : Option String) (app_name : String) : String :=
  match bundle_id.bind fetch with
  | some icon => icon
  | none =>
      match bundle_id.bind get_icon_by_bundle_id with
      | some icon => icon
      | none =>
          match get_icon_by_name app_name with
          | some icon => icon
          | none => "📋"

/-- map_content_type_to_category from clipboard_monitor.rs. -/
def map_content_type_to_category : ContentType → String
  | .Color => "color"
  | .Url => "links"
  | .Email => "email"
  | .Phone => "phone"
  | .Number => "number"
  | .Code => "code"
  | .Text => "text"

/-- The clipboard-changed event payload save_to_database emits for a text
item (field for field the json object built in clipboard_monitor.rs). -/
structure TextEventRecord where
  content : List Char
  contentType : String
  category : String
  isImage : Bool
  sourceAppName : String
  sourceAppIcon : String
  sourceBundleId : Option String
deriving DecidableEq, Repr

/-- save_to_database from clipboard_monitor.rs, as the record it emits:
classify the content, take both the contentType string and the category
from the detected type, attribute the frontmost app, resolve its icon
with get_app_icon. The emission itself and the dummy Ok(0) result carry
no further information. -/
def save_to_database (app_info : AppInfo) (content : List Char) :
    TextEventRecord :=
  let content_type := detect_content_type content
  { content := content
    contentType := content_type.as_str
    category := map_content_type_to_category content_type
    isImage := false
    sourceAppName := app_info.name
    sourceAppIcon := get_app_icon app_info.bundle_id app_info.name
    sourceBundleId := app_info.bundle_id }

/-- ImageMetadata from image_handler.rs. -/
structure ImageMetadata where
  image_path : String
  thumbnail_path : String
  width : Nat
  height : Nat
  file_size : Nat
  dominant_color : Option String
deriving DecidableEq, Repr

/-- The clipboard-changed event payload save_image_to_database emits
(field for field the json object built in clipboard_monitor.rs). -/
structure ImageEventRecord where
  content : String
  contentType : String
  category : String
  isImage : Bool
  imagePath : String
  thumbnailPath : String
  imageWidth : Nat
  imageHeight : Nat
  imageSize : Nat
  dominantColor : Option String
  sourceAppName : String
  sourceAppIcon : String
  sourceBundleId : Option String
deriving DecidableEq, Repr

/-- save_image_to_database from clipboard_monitor.rs, as the record it
emits; the function then returns Ok(0) unconditionally. -/
def save_image_to_database (app_info : AppInfo) (metadata : ImageMetadata) :
    ImageEventRecord :=
  { content := ""
    contentType := "image"
    category := "image"
    isImage := true
    imagePath := metadata.image_path
    thumbnailPath := metadata.thumbnail_path
    imageWidth := metadata.width
    imageHeight := metadata.height
    imageSize := metadata.file_size
    dominantColor := metadata.dominant_color
    sourceAppName := app_info.name
    sourceAppIcon := get_app_icon app_info.bundle_id app_info.name
    sourceBundleId := app_info.bundle_id }

/-- Outcome of one handle_clipboard_image call: the value of
last_image_hash afterwards, the artifact save_clipboard_image produced
(none when nothing was written), and the emitted event (none when the
call returned without emitting). -/
structure ImageHandleResult where
  last_image_hash : String
  saved : Option ImageMetadata
  emitted : Option ImageEventRecord
deriving DecidableEq, Repr

/-- Size cap of handle_clipboard_image: max_image_size_mb from the
loaded settings (10 when AppSettings::load fails), in bytes. -/
def max_size_bytes (settings : Option AppSettings) : Nat :=
  (match settings with
   | some s => s.max_image_size_mb
   | none => 10) * 1024 * 1024

/-- handle_clipboard_image from clipboard_monitor.rs. The environment is
passed explicitly: hash models DefaultHasher over the raw bytes, settings
the AppSettings::load outcome (none = load error, so the 10 MiB default
applies), app_data_dir_ok whether app.path().app_data_dir() succeeded,
and save_result the filesystem outcome of save_clipboard_image. An image
whose hash equals last_image_hash is skipped; an oversized image is
skipped; on a successful save the event is emitted (save_image_to_database
returns Ok) and only then is last_image_hash updated, while a failed save
leaves it unchanged. -/
def handle_clipboard_image (hash : List Nat → String) (app_info : AppInfo)
    (last_image_hash : String) (image_data : List Nat)
    (settings : Option AppSettings) (app_data_dir_ok : Bool)
    (save_result : Except String ImageMetadata) : ImageHandleResult :=
  let image_hash := hash image_data
  if last_image_hash = image_hash then
    { last_image_hash := last_image_hash, saved := none, emitted := none }
  else
    if image_data.length > max_size_bytes settings then
      { last_image_hash := last_image_hash, saved := none, emitted := none }
    else if !app_data_dir_ok then
      { last_image_hash := last_image_hash, saved := none, emitted := none }
    else
      match save_result with
      | .ok metadata =>
          { last_image_hash := image_hash
            saved := some metadata
            emitted := some (save_image_to_database app_info metadata) }
      | .error _ =>
          { last_image_hash := last_image_hash, saved := none, emitted := none }

/-- Rounding division: round (a / b) to the nearest integer, halves away
from zero, as f64::round does on the non-negative values that occur
here. -/
def roundDiv (a b : Nat) : Nat :=
  (2 * a + b) / (2 * b)

/-- resize_dimensions of the image crate, which DynamicImage::resize uses
to pick the output size: the largest size that fits within the requested
bounds while preserving the aspect ratio — the smaller of the two scale
ratios is applied to both sides, each result rounded to the nearest
integer and clamped to at least 1. The crate computes the ratios in f64;
exact rational arithmetic is modelled, written as cross-multiplied Nat
comparisons. -/
def resize_dimensions (width height nwidth nheight : Nat) : Nat × Nat :=
  if nwidth * height ≤ nheight * width then
    (max (roundDiv (width * nwidth) width) 1,
     max (roundDiv (height * nwidth) width) 1)
  else
    (max (roundDiv (width * nheight) height) 1,
     max (roundDiv (height * nheight) height) 1)

/-- generate_thumbnail from image_handler.rs, at the level of the output
dimensions (the Lanczos3 pixel resampling itself is outside the model).
When both sides are at most 400 the image is returned unchanged.
Otherwise the code computes a target: the longer side set to 400, the
shorter side scaled by the f32 ratio 400/longer and truncated by the cast
to u32 — modelled exactly as floor((shorter * 400) / longer) — and passes
the target to DynamicImage::resize, whose output size is
resize_dimensions. -/
def generate_thumbnail_dims (width height : Nat) : Nat × Nat :=
  if width ≤ 400 ∧ height ≤ 400 then (width, height)
  else if height < width then
    resize_dimensions width height 400 ((height * 400) / width)
  else
    resize_dimensions width height ((width * 400) / height) 400

/-- An RGB image as to_rgb8 presents it: dimensions and a pixel function
returning the three channels (u8 values, 0..255). -/
structure RgbImage where
  width : Nat
  height : Nat
  pix : Nat → Nat → Nat × Nat × Nat

/-- Uppercase hex digit, as the Rust format specifier X prints it. -/
def hexDigitChar (n : Nat) : Char :=
  if n < 10 then Char.ofNat (48 + n) else Char.ofNat (55 + n)

/-- Rust format specifier 02X: two uppercase hex digits, for values below
256 (the channel averages are u8). -/
def hex2 (n : Nat) : List Char :=
  [hexDigitChar (n / 16 % 16), hexDigitChar (n % 16)]

/-- The output format of extract_dominant_color. -/
def formatHexColor (r g b : Nat) : String :=
  String.mk ('#' :: (hex2 r ++ hex2 g ++ hex2 b))

/-- The sampled coordinates of one axis: 0, 10, 20, ... below the bound,
as the Rust iterator (0..bound).step_by(10) produces them. -/
def sampleCoords (bound : Nat) : List Nat :=
  (List.range bound).filter fun i => i % 10 = 0

/-- extract_dominant_color from image_handler.rs: sample every 10th pixel
along both axes, average each channel over the samples with u64 integer
division (u64 arithmetic cannot overflow for any decodable image, so Nat
sums model it), and format as a hash sign and six uppercase hex digits.
None when no pixel was sampled. -/
def extract_dominant_color (img : RgbImage) : Option String :=
  let samples :=
    (sampleCoords img.height).flatMap fun y =>
      (sampleCoords img.width).map fun x => img.pix x y
  let count := samples.length
  if count = 0 then none
  else
    let r_sum := (samples.map fun p => p.1).sum
    let g_sum := (samples.map fun p => p.2.1).sum
    let b_sum := (samples.map fun p => p.2.2).sum
    some (formatHexColor (r_sum / count) (g_sum / count) (b_sum / count))

-- ====================================================================
-- Theorems
-- ====================================================================

/-- C1: the claim says every string of the form local@domain.tld (the
anchored email pattern) classifies as Email and is never taken for Url.
The code disagrees: user@example.com matches the anchored email pattern,
yet detect_content_type returns Url, because the bare-domain alternative
of URL_REGEX accepts any non-whitespace run ending in .com and the URL
check runs before the email check. The unit test test_email_detection in
content_detector.rs asserts Email for this very input, so the code
contradicts its own tests. -/
theorem email_input_classified_as_url :
    emailMatch (trim "user@example.com".toList) = true ∧
    detect_content_type "user@example.com".toList = ContentType.Url ∧
    detect_content_type "user@example.com".toList ≠ ContentType.Email := by
  decide

/-- C7: the lifecycle is the two-state machine of the running flag:
start while running is a no-op, so two starts in a row spawn exactly one
monitor loop from a stopped state (and from new, two starts leave one
spawned loop); stop is idempotent and leaves the flag cleared; the
is_running query returns the flag. -/
theorem monitor_lifecycle :
    (∀ m : ClipboardMonitor, m.start.start = m.start) ∧
    (∀ m : ClipboardMonitor, m.is_running = false →
       m.start.start.spawnedLoops = m.spawnedLoops + 1 ∧
       m.start.start.is_running = true) ∧
    (ClipboardMonitor.new.start.start.spawnedLoops = 1) ∧
    (∀ m : ClipboardMonitor, m.stop.stop = m.stop ∧ m.stop.is_running = false) ∧
    (∀ m : ClipboardMonitor, m.is_running_query = m.is_running) := by
  refine ⟨?_, ?_, ?_, ?_, ?_⟩
  · intro m
    by_cases h : m.is_running <;> simp [ClipboardMonitor.start, h]
  · intro m h
    simp [ClipboardMonitor.start, h]
  · decide
  · intro m
    exact ⟨rfl, rfl⟩
  · intro m
    rfl

/-- C7 witness: applying the lifecycle theorem at a concrete stopped
monitor. -/
theorem monitor_lifecycle_witness :
    ClipboardMonitor.new.start.start.spawnedLoops =
      ClipboardMonitor.new.spawnedLoops + 1 ∧
    ClipboardMonitor.new.start.start.is_running = true :=
  monitor_lifecycle.2.1 ClipboardMonitor.new rfl

/-- C10: the contentType string and the category string of an emitted
text record agree, because ContentType::as_str and
map_content_type_to_category are the same seven-way mapping; a Url item
is emitted with the string links. -/
theorem contentType_equals_category :
    (∀ ct : ContentType, ct.as_str = map_content_type_to_category ct) ∧
    (∀ (app_info : AppInfo) (content : List Char),
       (save_to_database app_info content).contentType =
         (save_to_database app_info content).category) ∧
    (ContentType.Url.as_str = "links") ∧
    ((save_to_database ⟨"Safari", none⟩ "https://example.com".toList).contentType
       = "links") := by
  refine ⟨?_, ?_, rfl, by decide⟩
  · intro ct
    cases ct <;> rfl
  · intro app_info content
    show (detect_content_type content).as_str =
      map_content_type_to_category (detect_content_type content)
    cases detect_content_type content <;> rfl

/-- C4: detect_content_type returns Color exactly when the trimmed input
matches the anchored hex pattern of HEX_COLOR_REGEX; Color is the first
check, so a hex match wins over every later pattern. -/
theorem color_iff_hex_match :
    (∀ t : List Char,
       detect_content_type t = ContentType.Color ↔
         hexColorMatch (trim t) = true) ∧
    detect_content_type "#123".toList = ContentType.Color ∧
    detect_content_type "#FF5733".toList = ContentType.Color ∧
    detect_content_type "#GGG".toList ≠ ContentType.Color := by
  refine ⟨?_, by decide, by decide, by decide⟩
  intro t
  simp only [detect_content_type]
  split_ifs with h1 h2 h3 h4 h5 h6 h7 <;>
    simp_all [List.isEmpty_iff, hexColorMatch]

/-- Stripping a literal off a copy of itself leaves the remainder. -/
theorem stripLit_self_append (p l : List Char) :
    stripLit p (p ++ l) = some l := by
  induction p with
  | nil => rfl
  | cons c cs ih => simp [stripLit, ih]

/-- A pattern occurring as a contiguous block is found by containsSub. -/
theorem containsSub_of_block (pat a b : List Char) :
    containsSub pat (a ++ pat ++ b) = true := by
  induction a with
  | nil =>
      cases pat with
      | nil => cases b <;> rfl
      | cons q qs =>
          show (startsLit (q :: qs) (q :: (qs ++ b))
            || containsSub (q :: qs) (qs ++ b)) = true
          have h : stripLit (q :: qs) (q :: (qs ++ b)) = some b :=
            stripLit_self_append (q :: qs) b
          simp [startsLit, h]
  | cons c a2 ih =>
      show (startsLit pat (c :: (a2 ++ pat ++ b))
        || containsSub pat (a2 ++ pat ++ b)) = true
      rw [ih]
      simp

/-- C2: a text that passes the ignore filter is accepted whenever it
differs from last_content, and an identical repeat is accepted exactly
when strictly more than 1000 ms have elapsed since last_timestamp: a
repeat 500 ms after the last accept is rejected, a repeat 1500 ms after
is accepted. -/
theorem should_save_debounce :
    ∀ (m : ClipboardMonitor) (t : List Char) (now : Int),
      should_ignore_content t = false →
      (t ≠ m.last_content → m.should_save t now = true) ∧
      (t = m.last_content →
        (m.should_save t now = true ↔ now - m.last_timestamp > 1000)) := by
  intro m t now h
  constructor
  · intro hne
    simp [ClipboardMonitor.should_save, h, hne]
  · intro heq
    subst heq
    simp [ClipboardMonitor.should_save, h]

/-- C2 witness: with last_content Hello accepted at time 0, a repeat at
500 is rejected and a repeat at 1500 is accepted. -/
theorem should_save_debounce_witness :
    ClipboardMonitor.should_save ⟨false, "Hello".toList, "", 0, 0⟩
        "Hello".toList 500 = false ∧
    ClipboardMonitor.should_save ⟨false, "Hello".toList, "", 0, 0⟩
        "Hello".toList 1500 = true := by
  constructor
  · have h := (should_save_debounce ⟨false, "Hello".toList, "", 0, 0⟩
      "Hello".toList 500 (by decide)).2 rfl
    by_contra hc
    have : (500 : Int) - 0 > 1000 := h.mp (by
      cases hb : ClipboardMonitor.should_save ⟨false, "Hello".toList, "", 0, 0⟩
        "Hello".toList 500
      · exact absurd hb hc
      · rfl)
    omega
  · exact ((should_save_debounce ⟨false, "Hello".toList, "", 0, 0⟩
      "Hello".toList 1500 (by decide)).2 rfl).mpr (by decide)

/-- C3 counterexample: the lone character e-acute is one character long
after trimming (shorter than 2 characters), yet the ignore policy does
not reject it — should_ignore_content is false because Rust measures
str::len in UTF-8 bytes and this character occupies two bytes — and
should_save accepts it as fresh content. -/
theorem short_char_not_ignored :
    (trim "é".toList).length = 1 ∧
    should_ignore_content "é".toList = false ∧
    ClipboardMonitor.should_save ⟨false, [], "", 0, 0⟩ "é".toList 0 = true := by
  decide

/-- C3 as amended: the ignore policy rejects a text — should_save is
false whatever last_content, the elapsed time or novelty — when the
trimmed text is shorter than 2 UTF-8 bytes (equivalently 2 characters
for ASCII text), or when its lower-cased form contains one of the fixed
denylist substrings; in particular a text containing the block LOG in
brackets in any ASCII letter case is rejected. -/
theorem ignore_policy_rejects :
    (∀ (m : ClipboardMonitor) (t : List Char) (now : Int),
       (utf8Len (trim t) < 2 ∨
         ∃ p ∈ ignorePatterns, containsSub p (lowerList t) = true) →
       m.should_save t now = false) ∧
    (∀ (m : ClipboardMonitor) (a mid b : List Char) (now : Int),
       lowerList mid = "[log]".toList →
       m.should_save (a ++ mid ++ b) now = false) := by
  have core : ∀ (m : ClipboardMonitor) (t : List Char) (now : Int),
      (utf8Len (trim t) < 2 ∨
        ∃ p ∈ ignorePatterns, containsSub p (lowerList t) = true) →
      m.should_save t now = false := by
    intro m t now h
    have hig : should_ignore_content t = true := by
      rcases h with h | ⟨p, hp, hc⟩
      · simp [should_ignore_content, h]
      · simp only [should_ignore_content]
        split_ifs with hlen
        · rfl
        · exact List.any_eq_true.mpr ⟨p, hp, hc⟩
    simp [ClipboardMonitor.should_save, hig]
  refine ⟨core, ?_⟩
  intro m a mid b now hmid
  apply core
  right
  refine ⟨"[log]".toList, by decide, ?_⟩
  have hmid2 : List.map Char.toLower mid = "[log]".toList := hmid
  have : lowerList (a ++ mid ++ b) =
      lowerList a ++ "[log]".toList ++ lowerList b := by
    simp [lowerList, hmid2]
  rw [this]
  exact containsSub_of_block _ _ _

/-- C3 witness: applying the amended ignore theorem to a one-letter text
and to a text containing the LOG marker in mixed case. -/
theorem ignore_policy_rejects_witness :
    ClipboardMonitor.should_save ⟨false, [], "", 0, 0⟩ "x".toList 99 = false ∧
    ClipboardMonitor.should_save ⟨false, [], "", 0, 0⟩
      ("copy ".toList ++ "[LoG]".toList ++ " tail".toList) 7 = false := by
  constructor
  · exact ignore_policy_rejects.1 ⟨false, [], "", 0, 0⟩ "x".toList 99
      (Or.inl (by decide))
  · exact ignore_policy_rejects.2 ⟨false, [], "", 0, 0⟩
      "copy ".toList "[LoG]".toList " tail".toList 7 (by decide)

/-- C5: an image whose hash equals last_image_hash is rejected silently
(no save, no event, state unchanged); a failed save leaves
last_image_hash unchanged, so the image is retried; after a successful
save of a fresh image the hash is updated, so an immediate second
submission of the identical bytes is rejected silently — two identical
submissions yield exactly one saved artifact and one emitted record. -/
theorem image_dedup_and_retry :
    ∀ (hash : List Nat → String) (app_info : AppInfo) (lastHash : String)
      (data : List Nat) (settings : Option AppSettings)
      (metadata : ImageMetadata),
      (hash data = lastHash → ∀ (dirOk : Bool)
         (saveR : Except String ImageMetadata),
         handle_clipboard_image hash app_info lastHash data settings dirOk
           saveR = ⟨lastHash, none, none⟩) ∧
      (∀ (dirOk : Bool) (err : String),
         (handle_clipboard_image hash app_info lastHash data settings dirOk
           (.error err)).last_image_hash = lastHash) ∧
      (hash data ≠ lastHash → data.length ≤ max_size_bytes settings →
         let first := handle_clipboard_image hash app_info lastHash data
           settings true (.ok metadata)
         first.saved = some metadata ∧
         first.emitted = some (save_image_to_database app_info metadata) ∧
         first.last_image_hash = hash data ∧
         ∀ saveR2 : Except String ImageMetadata,
           handle_clipboard_image hash app_info first.last_image_hash data
             settings true saveR2 = ⟨hash data, none, none⟩) := by
  intro hash app_info lastHash data settings metadata
  refine ⟨?_, ?_, ?_⟩
  · intro h dirOk saveR
    simp [handle_clipboard_image, h]
  · intro dirOk err
    simp only [handle_clipboard_image]
    split_ifs <;> rfl
  · intro hne hsize
    have hsize2 : ¬ data.length > max_size_bytes settings := by omega
    have hne2 : ¬ lastHash = hash data := fun h => hne h.symm
    have hfirst : handle_clipboard_image hash app_info lastHash data settings
        true (.ok metadata) =
        ⟨hash data, some metadata,
          some (save_image_to_database app_info metadata)⟩ := by
      simp [handle_clipboard_image, hne2, hsize2]
    refine ⟨by rw [hfirst], by rw [hfirst], by rw [hfirst], ?_⟩
    intro saveR2
    rw [hfirst]
    simp [handle_clipboard_image]

/-- C5 witness: a concrete run — fresh bytes are saved and emitted once,
and the identical bytes immediately after are rejected silently. -/
theorem image_dedup_and_retry_witness :
    (handle_clipboard_image (fun _ => "h1") ⟨"App", none⟩ "" [1, 2, 3] none
       true (.ok ⟨"p", "t", 1, 1, 3, none⟩)).saved =
        some ⟨"p", "t", 1, 1, 3, none⟩ ∧
    handle_clipboard_image (fun _ => "h1") ⟨"App", none⟩
        (handle_clipboard_image (fun _ => "h1") ⟨"App", none⟩ "" [1, 2, 3]
          none true (.ok ⟨"p", "t", 1, 1, 3, none⟩)).last_image_hash
        [1, 2, 3] none true (.ok ⟨"p", "t", 1, 1, 3, none⟩) =
      ⟨"h1", none, none⟩ := by
  have h := (image_dedup_and_retry (fun _ => "h1") ⟨"App", none⟩ "" [1, 2, 3]
    none ⟨"p", "t", 1, 1, 3, none⟩).2.2 (by decide) (by decide)
  exact ⟨h.1, h.2.2.2 (.ok ⟨"p", "t", 1, 1, 3, none⟩)⟩

/-- Rounding b*a/b gives back a: the requested side of the ratio that
resize_dimensions selects is reproduced exactly. -/
theorem roundDiv_mul_self (b a : Nat) (hb : 0 < b) :
    roundDiv (b * a) b = a := by
  unfold roundDiv
  rw [show 2 * (b * a) + b = b * (2 * a + 1) by ring,
    show 2 * b = b * 2 by ring, Nat.mul_div_mul_left _ _ hb]
  omega

/-- Rounding a quotient bounded by k stays bounded by k. -/
theorem roundDiv_le (a b k : Nat) (hb : 0 < b) (h : a ≤ k * b) :
    roundDiv a b ≤ k := by
  unfold roundDiv
  have h1 : 2 * a + b < (k + 1) * (2 * b) := by nlinarith
  have h2 := (Nat.div_lt_iff_lt_mul (by omega : 0 < 2 * b)).mpr h1
  omega

/-- Both output sides of resize_dimensions lie between 1 and 400
whenever the requested bounds do. -/
theorem resize_dimensions_bounds (w h nw nh : Nat) (hw : 0 < w)
    (hh : 0 < h) (hnw : nw ≤ 400) (hnh : nh ≤ 400) :
    1 ≤ (resize_dimensions w h nw nh).1 ∧
      (resize_dimensions w h nw nh).1 ≤ 400 ∧
      1 ≤ (resize_dimensions w h nw nh).2 ∧
      (resize_dimensions w h nw nh).2 ≤ 400 := by
  unfold resize_dimensions
  split_ifs with hr
  · refine ⟨by simp, ?_, by simp, ?_⟩
    · simp only [max_le_iff]
      exact ⟨roundDiv_le _ _ _ hw (by nlinarith), by omega⟩
    · simp only [max_le_iff]
      refine ⟨roundDiv_le _ _ _ hw ?_, by omega⟩
      calc h * nw = nw * h := by ring
        _ ≤ nh * w := hr
        _ ≤ 400 * w := by exact Nat.mul_le_mul_right w hnh
  · refine ⟨by simp, ?_, by simp, ?_⟩
    · simp only [max_le_iff]
      refine ⟨roundDiv_le _ _ _ hh ?_, by omega⟩
      have : nh * w ≤ nw * h := by omega
      calc w * nh = nh * w := by ring
        _ ≤ nw * h := this
        _ ≤ 400 * h := by exact Nat.mul_le_mul_right h hnw
    · simp only [max_le_iff]
      exact ⟨roundDiv_le _ _ _ hh (by nlinarith), by omega⟩

/-- C6 counterexample: a 999 by 998 image is larger than 400 in both
sides, yet the thumbnail is 399 by 399 — its longer dimension is not
400. The target the code computes is 400 by 399 (the short side floor
truncated), and DynamicImage::resize fits the aspect ratio inside those
bounds, pulling the long side below 400 as well. -/
theorem thumbnail_longer_side_not_400 :
    400 < max 999 998 ∧
    generate_thumbnail_dims 999 998 = (399, 399) ∧
    max (generate_thumbnail_dims 999 998).1
      (generate_thumbnail_dims 999 998).2 ≠ 400 := by
  decide

/-- C6 as amended: for a nonempty image, if both sides are at most 400
the thumbnail is the original size exactly; otherwise each thumbnail
side lies between 1 and 400 (the thumbnail fits within the 400 by 400
box, but its longer side can fall below 400, as 999 by 998 shows). -/
theorem thumbnail_dims_bounds :
    ∀ w h : Nat, 0 < w → 0 < h →
      (w ≤ 400 ∧ h ≤ 400 → generate_thumbnail_dims w h = (w, h)) ∧
      (400 < max w h →
        1 ≤ (generate_thumbnail_dims w h).1 ∧
        (generate_thumbnail_dims w h).1 ≤ 400 ∧
        1 ≤ (generate_thumbnail_dims w h).2 ∧
        (generate_thumbnail_dims w h).2 ≤ 400) := by
  intro w h hw hh
  constructor
  · intro hsmall
    simp [generate_thumbnail_dims, hsmall]
  · intro hbig
    have hns : ¬ (w ≤ 400 ∧ h ≤ 400) := by
      simp only [lt_max_iff] at hbig
      omega
    unfold generate_thumbnail_dims
    rw [if_neg hns]
    split_ifs with hlt
    · have hnh : h * 400 / w ≤ 400 := by
        rw [Nat.div_le_iff_le_mul_add_pred hw]
        nlinarith
      have hb := resize_dimensions_bounds w h 400 (h * 400 / w) hw hh
        (by omega) hnh
      exact ⟨hb.1, hb.2.1, hb.2.2.1, hb.2.2.2⟩
    · have hnw : w * 400 / h ≤ 400 := by
        rw [Nat.div_le_iff_le_mul_add_pred hh]
        nlinarith [Nat.le_of_not_lt hlt]
      have hb := resize_dimensions_bounds w h (w * 400 / h) 400 hw hh
        hnw (by omega)
      exact ⟨hb.1, hb.2.1, hb.2.2.1, hb.2.2.2⟩

/-- C6 witness: the identity branch at 200 by 150 and the bounded branch
at 1000 by 800, by the amended theorem. -/
theorem thumbnail_dims_bounds_witness :
    generate_thumbnail_dims 200 150 = (200, 150) ∧
    ((generate_thumbnail_dims 1000 800).1 ≤ 400 ∧
      (generate_thumbnail_dims 1000 800).2 ≤ 400) := by
  refine ⟨(thumbnail_dims_bounds 200 150 (by decide) (by decide)).1
    (by decide), ?_⟩
  have h := (thumbnail_dims_bounds 1000 800 (by decide) (by decide)).2
    (by decide)
  exact ⟨h.2.1, h.2.2.2⟩

/-- Coordinate 0 is always sampled (the grid starts at pixel (0,0)). -/
theorem zero_mem_sampleCoords (n : Nat) (hn : 0 < n) :
    0 ∈ sampleCoords n := by
  simp [sampleCoords, List.mem_filter, List.mem_range, hn]

/-- The sample list of a nonempty image is nonempty: it holds the pixel
at (0,0). -/
theorem samples_ne_nil (img : RgbImage) (hw : 0 < img.width)
    (hh : 0 < img.height) :
    ((sampleCoords img.height).flatMap fun y =>
      (sampleCoords img.width).map fun x => img.pix x y) ≠ [] := by
  intro hcontra
  have h0 : img.pix 0 0 ∈ (sampleCoords img.height).flatMap fun y =>
      (sampleCoords img.width).map fun x => img.pix x y :=
    List.mem_flatMap.mpr ⟨0, zero_mem_sampleCoords _ hh,
      List.mem_map.mpr ⟨0, zero_mem_sampleCoords _ hw, rfl⟩⟩
  rw [hcontra] at h0
  exact absurd h0 (List.not_mem_nil _)

/-- Averaging a channel that is constant over the samples returns the
constant: the sum is length times the value, and the integer division is
exact. -/
theorem sum_map_div_length {α : Type} (l : List α) (f : α → Nat) (v : Nat)
    (hne : l ≠ []) (hall : ∀ p ∈ l, f p = v) :
    (l.map f).sum / l.length = v := by
  have hrep : l.map f = List.replicate l.length v := by
    apply List.eq_replicate_iff.mpr
    refine ⟨by simp, ?_⟩
    intro x hx
    obtain ⟨p, hp, rfl⟩ := List.mem_map.mp hx
    exact hall p hp
  rw [hrep, List.sum_replicate, smul_eq_mul]
  exact Nat.mul_div_cancel_left v (List.length_pos.mpr hne)

/-- Unfolding lemma for extract_dominant_color: the let bindings of the
definition written out. -/
theorem extract_dominant_color_spec (img : RgbImage) :
    extract_dominant_color img =
      if ((sampleCoords img.height).flatMap fun y =>
          (sampleCoords img.width).map fun x => img.pix x y).length = 0
      then none
      else some (formatHexColor
        ((((sampleCoords img.height).flatMap fun y =>
            (sampleCoords img.width).map fun x => img.pix x y).map
              fun p => p.1).sum /
          ((sampleCoords img.height).flatMap fun y =>
            (sampleCoords img.width).map fun x => img.pix x y).length)
        ((((sampleCoords img.height).flatMap fun y =>
            (sampleCoords img.width).map fun x => img.pix x y).map
              fun p => p.2.1).sum /
          ((sampleCoords img.height).flatMap fun y =>
            (sampleCoords img.width).map fun x => img.pix x y).length)
        ((((sampleCoords img.height).flatMap fun y =>
            (sampleCoords img.width).map fun x => img.pix x y).map
              fun p => p.2.2).sum /
          ((sampleCoords img.height).flatMap fun y =>
            (sampleCoords img.width).map fun x => img.pix x y).length)) :=
  rfl

/-- C8: extract_dominant_color averages the channels over the grid of
every 10th pixel on both axes and prints two uppercase hex digits per
channel; a nonempty image always yields a color (pixel (0,0) is
sampled), a uniformly colored image yields exactly its color, and the
uniform red 100 by 100 image yields the string #FF0000. -/
theorem dominant_color_average :
    (∀ img : RgbImage, 0 < img.width → 0 < img.height →
       (extract_dominant_color img).isSome = true) ∧
    (∀ (w h r g b : Nat), 0 < w → 0 < h →
       extract_dominant_color ⟨w, h, fun _ _ => (r, g, b)⟩ =
         some (formatHexColor r g b)) ∧
    extract_dominant_color ⟨100, 100, fun _ _ => (255, 0, 0)⟩ =
      some "#FF0000" := by
  refine ⟨?_, ?_, by decide⟩
  · intro img hw hh
    have hne := samples_ne_nil img hw hh
    rw [extract_dominant_color_spec,
      if_neg fun h0 => hne (List.length_eq_zero.mp h0)]
    rfl
  · intro w h r g b hw hh
    have hne : ((sampleCoords h).flatMap fun y =>
        (sampleCoords w).map fun x => ((r, g, b) : Nat × Nat × Nat)) ≠ [] :=
      samples_ne_nil ⟨w, h, fun _ _ => (r, g, b)⟩ hw hh
    have hall : ∀ p ∈ (sampleCoords h).flatMap fun y =>
        (sampleCoords w).map fun x => ((r, g, b) : Nat × Nat × Nat),
        p = (r, g, b) := by
      intro p hp
      obtain ⟨y, _, hp2⟩ := List.mem_flatMap.mp hp
      obtain ⟨x, _, rfl⟩ := List.mem_map.mp hp2
      rfl
    rw [extract_dominant_color_spec]
    show (if ((sampleCoords h).flatMap fun y =>
        (sampleCoords w).map fun x => ((r, g, b) : Nat × Nat × Nat)).length = 0
      then none else _) = _
    rw [if_neg fun h0 => hne (List.length_eq_zero.mp h0)]
    rw [sum_map_div_length _ (fun p => p.1) r hne
        fun p hp => by rw [hall p hp],
      sum_map_div_length _ (fun p => p.2.1) g hne
        fun p hp => by rw [hall p hp],
      sum_map_div_length _ (fun p => p.2.2) b hne
        fun p hp => by rw [hall p hp]]

/-- C8 witness: a uniform 3 by 4 image of channel values (7, 8, 9)
yields the hex string of exactly those values, by the theorem. -/
theorem dominant_color_average_witness :
    extract_dominant_color ⟨3, 4, fun _ _ => (7, 8, 9)⟩ =
      some (formatHexColor 7 8 9) :=
  dominant_color_average.2.1 3 4 7 8 9 (by decide) (by decide)

/-- C9 counterexample: with a platform fetch that returns a native icon
for every bundle id, the resolution order the claim states gives the
native icon for Chrome, but the record save_to_database emits carries
the emoji from the bundle table — the icon used for an accepted
clipboard item never consults the platform-native lookup (get_app_icon
has no access to it; the native path lives only in the separate
get_app_icon_data command). -/
theorem item_icon_skips_native_lookup :
    claimedItemIconResolution (fun _ => some "data:image/png;base64,AAAA")
        (some "com.google.Chrome") "Google Chrome" =
      "data:image/png;base64,AAAA" ∧
    (save_to_database ⟨"Google Chrome", some "com.google.Chrome"⟩
        "hello world".toList).sourceAppIcon = "🌐" ∧
    ("🌐" : String) ≠ "data:image/png;base64,AAAA" := by
  refine ⟨rfl, ?_, by decide⟩
  show get_app_icon (some "com.google.Chrome") "Google Chrome" = "🌐"
  decide

/-- C9 as amended: the icon attached to an accepted clipboard item is
resolved by get_app_icon only — (b) bundle id table, (c) name table,
(d) fallback glyph; the platform-native lookup by bundle id, cached per
bundle id including negative entries, belongs to the separate
get_app_icon_data command, which prefers the native icon and falls back
to the same emoji resolution. -/
theorem icon_resolution_order :
    (∀ (bid : Option String) (name : String) (content : List Char),
       (save_to_database ⟨name, bid⟩ content).sourceAppIcon =
         get_app_icon bid name) ∧
    (∀ (bid name icon : String), get_icon_by_bundle_id bid = some icon →
       get_app_icon (some bid) name = icon) ∧
    (∀ (bid name icon : String), get_icon_by_bundle_id bid = none →
       get_icon_by_name name = some icon →
       get_app_icon (some bid) name = icon) ∧
    (∀ bid name : String, get_icon_by_bundle_id bid = none →
       get_icon_by_name name = none →
       get_app_icon (some bid) name = "📋") ∧
    (∀ (fetch : String → Option String)
       (cache : List (String × Option String)) (bid name : String)
       (icon : String),
       (get_system_icon fetch cache bid).1 = some icon →
       (get_app_icon_data fetch cache (some bid) name).1 = icon) ∧
    (∀ (fetch : String → Option String)
       (cache : List (String × Option String)) (bid name : String),
       (get_system_icon fetch cache bid).1 = none →
       (get_app_icon_data fetch cache (some bid) name).1 =
         get_app_icon (some bid) name) ∧
    (∀ (fetch : String → Option String)
       (cache : List (String × Option String)) (bid : String),
       cache.find? (fun p => p.1 == bid) = none →
       get_system_icon fetch cache bid = (fetch bid, (bid, fetch bid) :: cache, true) ∧
       get_system_icon fetch ((bid, fetch bid) :: cache) bid =
         (fetch bid, (bid, fetch bid) :: cache, false)) := by
  refine ⟨?_, ?_, ?_, ?_, ?_, ?_, ?_⟩
  · intro bid name content
    rfl
  · intro bid name icon h
    simp [get_app_icon, h]
  · intro bid name icon h1 h2
    simp [get_app_icon, h1, h2]
  · intro bid name h1 h2
    simp [get_app_icon, h1, h2]
  · intro fetch cache bid name icon h
    simp only [get_app_icon_data]
    rcases hg : get_system_icon fetch cache bid with ⟨i, c2, f⟩
    rw [hg] at h
    cases i with
    | none => simp at h
    | some j =>
        simp at h
        subst h
        rfl
  · intro fetch cache bid name h
    simp only [get_app_icon_data]
    rcases hg : get_system_icon fetch cache bid with ⟨i, c2, f⟩
    rw [hg] at h
    cases i with
    | none => rfl
    | some j => simp at h
  · intro fetch cache bid h
    constructor
    · simp [get_system_icon, h]
    · simp [get_system_icon, List.find?]

/-- C9 witness: the negative cache at work, by the theorem — a first
lookup with a failing fetch performs the fetch and caches the miss, and
the second lookup returns the miss without fetching. -/
theorem icon_resolution_order_witness :
    get_system_icon (fun _ => none) [] "com.example.app" =
      (none, [("com.example.app", none)], true) ∧
    get_system_icon (fun _ => none) [("com.example.app", none)]
        "com.example.app" =
      (none, [("com.example.app", none)], false) :=
  icon_resolution_order.2.2.2.2.2.2 (fun _ => none) [] "com.example.app" rfl
